import Mathlib

/-!
Verification development for the PatchEval real-time stream monitor
(`patcheval/exp_agent/geminicli/patcheval/stream_monitor.py`).

The Python source is shallowly embedded below: JSON parsing models
`json.loads` on the inputs the monitor sees, the two fallback regexes are
modelled as dedicated backtracking matchers, and the mutable
`RealTimeStreamMonitor` object becomes explicit state passing over
`MonitorState`.  Lines of stream text are `List Char`; Python `dict`
counters (`defaultdict(int)`) are association lists.
-/

/-- JSON values as produced by `json.loads`.  Numbers are modelled as
integers (every numeric literal the monitor consumes is an integer). -/
inductive JValue where
  | jnull : JValue
  | jbool : Bool → JValue
  | jnum : Int → JValue
  | jstr : String → JValue
  | jarr : List JValue → JValue
  | jobj : List (String × JValue) → JValue

/-- JSON whitespace skipped by the decoder: space, tab, newline, carriage
return (the exact set used by Python's `json` module). -/
def isJWs : Char → Bool
  | ' ' => true
  | '\t' => true
  | '\n' => true
  | '\r' => true
  | _ => false

/-- Drop leading JSON whitespace. -/
def jskip (cs : List Char) : List Char := cs.dropWhile isJWs

/-- Translate one escape character (the char after a backslash) as the JSON
decoder does; `none` for `\u` (handled separately) and invalid escapes. -/
def escChar : Char → Option Char
  | '"' => some '"'
  | '\\' => some '\\'
  | '/' => some '/'
  | 'b' => some '\x08'
  | 'f' => some '\x0c'
  | 'n' => some '\n'
  | 'r' => some '\r'
  | 't' => some '\t'
  | _ => none

/-- Hex digit value. -/
def hexVal (c : Char) : Option Nat :=
  if '0' ≤ c ∧ c ≤ '9' then some (c.toNat - '0'.toNat)
  else if 'a' ≤ c ∧ c ≤ 'f' then some (c.toNat - 'a'.toNat + 10)
  else if 'A' ≤ c ∧ c ≤ 'F' then some (c.toNat - 'A'.toNat + 10)
  else none

/-- Parse the body of a JSON string literal (opening quote already
consumed).  Strict mode: unescaped control characters are rejected, like
Python's decoder.  Returns the decoded characters and the rest. -/
def parseJStringAux : List Char → List Char → Option (List Char × List Char)
  | _, [] => none
  | acc, c :: rest =>
    if c == '"' then some (acc.reverse, rest)
    else if c == '\\' then
      match rest with
      | [] => none
      | 'u' :: h1 :: h2 :: h3 :: h4 :: rest2 =>
        match hexVal h1, hexVal h2, hexVal h3, hexVal h4 with
        | some a, some b, some d, some e =>
          parseJStringAux (Char.ofNat (a * 4096 + b * 256 + d * 16 + e) :: acc) rest2
        | _, _, _, _ => none
      | e :: rest2 =>
        match escChar e with
        | some ec => parseJStringAux (ec :: acc) rest2
        | none => none
    else if c.toNat < 32 then none
    else parseJStringAux (c :: acc) rest

/-- Parse a JSON integer literal: optional minus, digits, with the JSON
leading-zero restriction.  A following `.`, `e` or `E` (a float literal)
is not supported by this model and fails. -/
def parseJNum (cs : List Char) : Option (JValue × List Char) :=
  let (neg, cs1) :=
    match cs with
    | '-' :: rest => (true, rest)
    | _ => (false, cs)
  let digits := cs1.takeWhile Char.isDigit
  let rest := cs1.dropWhile Char.isDigit
  if digits = [] then none
  else if 1 < digits.length ∧ digits.headI = '0' then none
  else
    match rest with
    | '.' :: _ => none
    | 'e' :: _ => none
    | 'E' :: _ => none
    | _ =>
      let n : Nat := digits.foldl (fun a c => a * 10 + (c.toNat - '0'.toNat)) 0
      some (.jnum (if neg then -(n : Int) else (n : Int)), rest)

mutual

/-- Parse one JSON value; fuel bounds recursion depth and is always ample
for the inputs fed to it (`jsonParse` supplies `length + 1`). -/
def parseJValue : Nat → List Char → Option (JValue × List Char)
  | 0, _ => none
  | fuel + 1, cs =>
    match jskip cs with
    | [] => none
    | '"' :: rest =>
      match parseJStringAux [] rest with
      | some (s, r) => some (.jstr (String.mk s), r)
      | none => none
    | '\x7b' :: rest =>
      match jskip rest with
      | '\x7d' :: rest2 => some (.jobj [], rest2)
      | rest2 => parseJFields fuel rest2 []
    | '[' :: rest =>
      match jskip rest with
      | ']' :: rest2 => some (.jarr [], rest2)
      | rest2 => parseJElems fuel rest2 []
    | 't' :: 'r' :: 'u' :: 'e' :: rest => some (.jbool true, rest)
    | 'f' :: 'a' :: 'l' :: 's' :: 'e' :: rest => some (.jbool false, rest)
    | 'n' :: 'u' :: 'l' :: 'l' :: rest => some (.jnull, rest)
    | c :: rest => parseJNum (c :: rest)

/-- Parse the members of a JSON object after the opening brace (leading
whitespace already skipped, object known to be non-empty). -/
def parseJFields : Nat → List Char → List (String × JValue) →
    Option (JValue × List Char)
  | 0, _, _ => none
  | fuel + 1, cs, acc =>
    match cs with
    | '"' :: rest =>
      match parseJStringAux [] rest with
      | none => none
      | some (key, rest2) =>
        match jskip rest2 with
        | ':' :: rest3 =>
          match parseJValue fuel rest3 with
          | none => none
          | some (v, rest4) =>
            match jskip rest4 with
            | ',' :: rest5 =>
              parseJFields fuel (jskip rest5) (acc ++ [(String.mk key, v)])
            | '\x7d' :: rest5 => some (.jobj (acc ++ [(String.mk key, v)]), rest5)
            | _ => none
        | _ => none
    | _ => none

/-- Parse the elements of a JSON array after the opening bracket (leading
whitespace already skipped, array known to be non-empty). -/
def parseJElems : Nat → List Char → List JValue → Option (JValue × List Char)
  | 0, _, _ => none
  | fuel + 1, cs, acc =>
    match parseJValue fuel cs with
    | none => none
    | some (v, rest) =>
      match jskip rest with
      | ',' :: rest2 => parseJElems fuel (jskip rest2) (acc ++ [v])
      | ']' :: rest2 => some (.jarr (acc ++ [v]), rest2)
      | _ => none

end

/-- Model of `json.loads` on a whole text: one value, then only
whitespace may remain (Python raises on trailing data). -/
def jsonParse (cs : List Char) : Option JValue :=
  match parseJValue (cs.length + 1) cs with
  | some (v, rest) => if jskip rest = [] then some v else none
  | none => none

/-- Lookup in a Python `dict` with duplicate keys possible: the last
binding wins, as `json.loads` builds dicts. -/
def objGet : List (String × JValue) → String → Option JValue
  | [], _ => none
  | (k', v) :: rest, k =>
    match objGet rest k with
    | some w => some w
    | none => if k' = k then some v else none

/-- Read a field as a string with a default, as `d.get(k, default)`
followed by string use does. -/
def jStrD (v : Option JValue) (d : String) : String :=
  match v with
  | some (.jstr s) => s
  | _ => d

/-- Counter lookup in an association list (`defaultdict(int)` read). -/
def alGet : List (String × Nat) → String → Nat
  | [], _ => 0
  | (k', v) :: rest, k => if k' = k then v else alGet rest k

/-- Lookup returning `none` when absent (`dict.get(k, sentinel)`). -/
def alFind : List (String × Nat) → String → Option Nat
  | [], _ => none
  | (k', v) :: rest, k => if k' = k then some v else alFind rest k

/-- Counter increment in an association list (`d[k] += 1` on a
`defaultdict(int)`). -/
def alInc : List (String × Nat) → String → List (String × Nat)
  | [], k => [(k, 1)]
  | (k', v) :: rest, k =>
    if k' = k then (k', v + 1) :: rest else (k', v) :: alInc rest k

/-- Sum of all counters in an association list (the Σ of the spec's
`total_calls == Σ per-tool counts` invariant). -/
def alSum (l : List (String × Nat)) : Nat := (l.map Prod.snd).sum

/-- Per-million-token prices of a model, in USD. -/
structure Price where
  input : ℚ
  output : ℚ
  deriving DecidableEq, Repr

/-- The monitor's pricing table lookup with its fallback:
`self.pricing.get(model, self.pricing['claude-3-5-sonnet-20241022'])`. -/
def pricingLookup (model : String) : Price :=
  if model = "claude-3-5-haiku-20241022" then ⟨1, 5⟩
  else if model = "kimi-k2-0711-preview" then ⟨1, 5⟩
  else if model = "claude-3-5-sonnet-20241022" then ⟨3, 15⟩
  else ⟨3, 15⟩

/-- The mutable state of a `RealTimeStreamMonitor`: configuration fields
(`tool_limits`, `max_total_calls`, `max_cost_usd`) and the running
counters, cost ledger, stop flag and JSON accumulation buffer. -/
structure MonitorState where
  tool_limits : List (String × Nat)
  max_total_calls : Option Nat
  max_cost_usd : ℚ
  tool_calls : List (String × Nat)
  total_calls : Nat
  id_format_stats : List (String × Nat)
  current_cost_usd : ℚ
  total_input_tokens : Int
  total_output_tokens : Int
  should_stop : Bool
  json_buffer : List Char
  in_json_block : Bool
  deriving DecidableEq, Repr

/-- `RealTimeStreamMonitor.__init__`. -/
def initMonitor (tool_limits : List (String × Nat)) (max_total_calls : Option Nat)
    (max_cost_usd : ℚ) : MonitorState :=
  { tool_limits := tool_limits
    max_total_calls := max_total_calls
    max_cost_usd := max_cost_usd
    tool_calls := []
    total_calls := 0
    id_format_stats := []
    current_cost_usd := 0
    total_input_tokens := 0
    total_output_tokens := 0
    should_stop := false
    json_buffer := []
    in_json_block := false }

/-- Characters after the last underscore (`tool_id.split("_")[-1]`). -/
def lastUnderscoreField (cs : List Char) : List Char :=
  (cs.reverse.takeWhile (fun c => c ≠ '_')).reverse

/-- Python `str.isdigit` restricted to ASCII: non-empty and all digits. -/
def isDigits (cs : List Char) : Bool :=
  !cs.isEmpty && cs.all Char.isDigit

/-- Does the literal `pat` occur as a prefix of `cs`? -/
def litPre : List Char → List Char → Bool
  | [], _ => true
  | _ :: _, [] => false
  | p :: ps, c :: cs => p == c && litPre ps cs

/-- `RealTimeStreamMonitor._detect_tool_id_format`. -/
def detect_tool_id_format (tool_id : String) : String :=
  let cs := tool_id.data
  if cs = [] then "unknown"
  else if litPre "toolu_".data cs then "anthropic_standard"
  else if litPre "call_".data cs && (cs.drop 5).any (fun c => c = '_') then
    "proxy_format"
  else if cs.any (fun c => c = '_') && isDigits (lastUnderscoreField cs) then
    "simplified"
  else "custom"

/-- The unconditional counting step at the end of `_handle_tool_call`. -/
def incCounts (s : MonitorState) (tool_name : String) : MonitorState :=
  { s with tool_calls := alInc s.tool_calls tool_name
           total_calls := s.total_calls + 1 }

/-- The per-tool-limit check of `_handle_tool_call` (reached when the
total cap did not fire): `tool_limits.get(name, inf)` then compare. -/
def toolLimitStep (s : MonitorState) (tool_name : String) : MonitorState :=
  match alFind s.tool_limits tool_name with
  | some lim =>
    if lim ≤ alGet s.tool_calls tool_name then { s with should_stop := true }
    else incCounts s tool_name
  | none => incCounts s tool_name

/-- `RealTimeStreamMonitor._handle_tool_call`: classify the id format
(always counted), then the total cap, then the per-tool limit, then
count. -/
def handle_tool_call (s : MonitorState) (tool_name tool_id : String) :
    MonitorState :=
  let fmt := detect_tool_id_format tool_id
  let s := { s with id_format_stats := alInc s.id_format_stats fmt }
  match s.max_total_calls with
  | some cap =>
    if cap ≤ s.total_calls then { s with should_stop := true }
    else toolLimitStep s tool_name
  | none => toolLimitStep s tool_name

/-- `RealTimeStreamMonitor._handle_usage_data`: accumulate tokens, price
the usage with fallback, append to the cost ledger, and set
`should_stop` when the cap is reached (the overshooting cost stays). -/
def handle_usage_data (s : MonitorState) (input_tokens output_tokens : Int)
    (model : String) : MonitorState :=
  if 0 < input_tokens ∨ 0 < output_tokens then
    let p := pricingLookup model
    let new_cost : ℚ :=
      (input_tokens : ℚ) / 1000000 * p.input +
        (output_tokens : ℚ) / 1000000 * p.output
    let s' := { s with
      total_input_tokens := s.total_input_tokens + input_tokens
      total_output_tokens := s.total_output_tokens + output_tokens
      current_cost_usd := s.current_cost_usd + new_cost }
    if s'.max_cost_usd ≤ s'.current_cost_usd then { s' with should_stop := true }
    else s'
  else s

/-- Python whitespace, as used by `str.strip` and the regex class `\s`:
space, tab, newline, carriage return, vertical tab, form feed. -/
def isPyWs : Char → Bool
  | ' ' => true
  | '\t' => true
  | '\n' => true
  | '\r' => true
  | '\x0b' => true
  | '\x0c' => true
  | _ => false

/-- `line.strip()`. -/
def pstrip (cs : List Char) : List Char :=
  ((cs.dropWhile isPyWs).reverse.dropWhile isPyWs).reverse

/-- One `tool_use` content item of an assistant message
(`_handle_json_message`, inner loop): a dict with `type == 'tool_use'`
and a non-empty name is counted. -/
def handleContentItem (s : MonitorState) (item : JValue) : MonitorState :=
  match item with
  | .jobj ifields =>
    match objGet ifields "type" with
    | some (.jstr t) =>
      if t = "tool_use" then
        let nm := jStrD (objGet ifields "name") ""
        let tid := jStrD (objGet ifields "id") ""
        if nm ≠ "" then handle_tool_call s nm tid else s
      else s
    | _ => s
  | _ => s

/-- `usage.get(key, 0)` read of a token count.  `none` models the Python
`TypeError` a non-numeric value would raise, which aborts the usage
handler before it mutates anything. -/
def tokVal (v : Option JValue) : Option Int :=
  match v with
  | none => some 0
  | some (.jnum n) => some n
  | _ => none

/-- The content loop of `_handle_json_message`: dispatch every
`tool_use` item of a list-valued `content` field. -/
def processContent (s : MonitorState) (mfields : List (String × JValue)) :
    MonitorState :=
  match objGet mfields "content" with
  | some (.jarr items) => items.foldl handleContentItem s
  | _ => s

/-- The usage tail of `_handle_json_message`: a non-empty `usage` dict
with numeric token counts is priced under the message's model. -/
def processUsage (s : MonitorState) (mfields : List (String × JValue)) :
    MonitorState :=
  match objGet mfields "usage" with
  | some (.jobj ufields) =>
    if ufields.isEmpty = false then
      match tokVal (objGet ufields "input_tokens"),
          tokVal (objGet ufields "output_tokens") with
      | some i, some o =>
        handle_usage_data s i o (jStrD (objGet mfields "model") "")
      | _, _ => s
    else s
  | _ => s

/-- `RealTimeStreamMonitor._handle_json_message`: only `assistant`
messages are examined; every `tool_use` content item is dispatched, then
a non-empty `usage` dict is priced. -/
def handle_json_message (s : MonitorState) (data : JValue) : MonitorState :=
  match data with
  | .jobj fields =>
    match objGet fields "type" with
    | some (.jstr t) =>
      if t = "assistant" then
        match objGet fields "message" with
        | some (.jobj mfields) => processUsage (processContent s mfields) mfields
        | _ => s
      else s
    | _ => s
  | _ => s

/-- Match a literal at the head of the input; returns the rest. -/
def matchLit : List Char → List Char → Option (List Char)
  | [], cs => some cs
  | _ :: _, [] => none
  | p :: ps, c :: cs => if p == c then matchLit ps cs else none

/-- Greedy `\s*` (never needs backtracking in the monitor's patterns
because the following literal is never whitespace). -/
def skipRWs (cs : List Char) : List Char := cs.dropWhile isPyWs

/-- Greedy `([^"]+)"`: maximal non-quote run (non-empty) followed by the
closing quote; exact because `"` is excluded from the class. -/
def capNonQuote (cs : List Char) : Option (List Char × List Char) :=
  let run := cs.takeWhile (fun c => c != '"')
  let rest := cs.dropWhile (fun c => c != '"')
  if run = [] then none
  else
    match rest with
    | '"' :: r => some (run, r)
    | _ => none

/-- Match `"key"\s*:\s*"` (the key literal includes its quotes); returns
the input just after the value's opening quote. -/
def matchKeyQuote (key : List Char) (cs : List Char) : Option (List Char) :=
  match matchLit key cs with
  | none => none
  | some r1 =>
    match skipRWs r1 with
    | ':' :: r2 =>
      match skipRWs r2 with
      | '"' :: r3 => some r3
      | _ => none
    | _ => none

/-- Match `"name"\s*:\s*"([^"]+)"` at the head; returns the capture and
the rest after the closing quote. -/
def matchNameAtR (cs : List Char) : Option (String × List Char) :=
  match matchKeyQuote "\"name\"".data cs with
  | none => none
  | some r =>
    match capNonQuote r with
    | some (nm, r2) => some (String.mk nm, r2)
    | none => none

/-- Backtracking for the greedy `[^}]*` before `"name"`: try the longest
skip first, shrinking to 0, as the regex engine does. -/
def tryNameFrom (cs : List Char) : Nat → Option String
  | 0 => (matchNameAtR cs).map (fun p => p.1)
  | k + 1 =>
    match matchNameAtR (cs.drop (k + 1)) with
    | some p => some p.1
    | none => tryNameFrom cs k

/-- Match `"id"\s*:\s*"([^"]+)"` then `[^}]*"name"\s*:\s*"([^"]+)"`
starting at offset `k` of `cs` (the id part of pattern 1). -/
def idThenName (cs : List Char) (k : Nat) : Option (String × String) :=
  match matchKeyQuote "\"id\"".data (cs.drop k) with
  | none => none
  | some r =>
    match capNonQuote r with
    | none => none
    | some (idc, rest) =>
      let win := (rest.takeWhile (fun c => c != '\x7d')).length
      match tryNameFrom rest win with
      | some nm => some (String.mk idc, nm)
      | none => none

/-- Backtracking for the greedy `[^}]*` before `"id"`: longest first. -/
def tryIdFrom (cs : List Char) : Nat → Option (String × String)
  | 0 => idThenName cs 0
  | k + 1 =>
    match idThenName cs (k + 1) with
    | some r => some r
    | none => tryIdFrom cs k

/-- Attempt the first fallback regex
`"type"\s*:\s*"tool_use"[^}]*"id"\s*:\s*"([^"]+)"[^}]*"name"\s*:\s*"([^"]+)"`
anchored at the head of `cs`; returns `(tool_id, tool_name)`. -/
def matchP1At (cs : List Char) : Option (String × String) :=
  match matchLit "\"type\"".data cs with
  | none => none
  | some r1 =>
    match skipRWs r1 with
    | ':' :: r2 =>
      match matchLit "\"tool_use\"".data (skipRWs r2) with
      | none => none
      | some r3 =>
        let win := (r3.takeWhile (fun c => c != '\x7d')).length
        tryIdFrom r3 win
    | _ => none

/-- Leftmost match of the first fallback regex (only the first match is
used: the source returns inside the `findall` loop). -/
def firstMatchP1 : List Char → Option (String × String)
  | [] => none
  | c :: cs =>
    match matchP1At (c :: cs) with
    | some r => some r
    | none => firstMatchP1 cs

/-- The character class `[a-f0-9\-]` of the second fallback regex. -/
def isHexDash (c : Char) : Bool :=
  ('a' ≤ c && c ≤ 'f') || ('0' ≤ c && c ≤ '9') || c == '-'

/-- Attempt the second fallback regex
`"id"\s*:\s*"(call_\d+_[a-f0-9\-]+)"\s*,\s*"name"\s*:\s*"([^"]+)"`
anchored at the head; returns `(tool_id, tool_name, rest)`. -/
def matchP2At (cs : List Char) : Option (String × String × List Char) :=
  match matchKeyQuote "\"id\"".data cs with
  | none => none
  | some r =>
    match matchLit "call_".data r with
    | none => none
    | some r2 =>
      let ds := r2.takeWhile Char.isDigit
      let r3 := r2.dropWhile Char.isDigit
      if ds = [] then none
      else
        match r3 with
        | '_' :: r4 =>
          let hs := r4.takeWhile isHexDash
          let r5 := r4.dropWhile isHexDash
          if hs = [] then none
          else
            match r5 with
            | '"' :: r6 =>
              match skipRWs r6 with
              | ',' :: r7 =>
                match matchNameAtR (skipRWs r7) with
                | some (nm, r8) =>
                  some (String.mk ("call_".data ++ ds ++ '_' :: hs), nm, r8)
                | none => none
              | _ => none
            | _ => none
        | _ => none

/-- `re.findall` for the second fallback regex: leftmost, non-overlapping
matches.  Fuel is the line length plus one, always sufficient since every
step consumes at least one character. -/
def findallP2 : Nat → List Char → List (String × String)
  | 0, _ => []
  | _ + 1, [] => []
  | fuel + 1, c :: cs =>
    match matchP2At (c :: cs) with
    | some (tid, nm, rest) => (tid, nm) :: findallP2 fuel rest
    | none => findallP2 fuel cs

/-- `RealTimeStreamMonitor._detect_tool_calls_in_line`: the first match
of pattern 1 short-circuits (the source returns inside the loop); only
when pattern 1 has no match are all pattern-2 matches handled. -/
def detect_tool_calls_in_line (s : MonitorState) (line : List Char) :
    MonitorState :=
  match firstMatchP1 line with
  | some (tid, nm) => handle_tool_call s nm tid
  | none =>
    (findallP2 (line.length + 1) line).foldl
      (fun st pr => handle_tool_call st pr.2 pr.1) s

/-- Scan for `pat` starting at index `i` of the remaining text. -/
def findSubAux (pat : List Char) : List Char → Nat → Option Nat
  | [], i => if litPre pat [] then some i else none
  | c :: rest, i =>
    if litPre pat (c :: rest) then some i else findSubAux pat rest (i + 1)

/-- Leftmost occurrence of `pat` in `cs` (`str.find`, as an `Option`
instead of `-1`). -/
def findSub (pat cs : List Char) : Option Nat := findSubAux pat cs 0

/-- Python `pat in line`. -/
def containsSub (pat cs : List Char) : Bool := (findSub pat cs).isSome

/-- The first event-opening marker recognized by `_process_json_buffer`. -/
def markerAssistant : List Char := "\x7b\"type\":\"assistant\"".data

/-- The second event-opening marker. -/
def markerUser : List Char := "\x7b\"type\":\"user\"".data

/-- The third event-opening marker. -/
def markerSystem : List Char := "\x7b\"type\":\"system\"".data

/-- `RealTimeStreamMonitor._try_parse_buffered_json`: parse the whole
buffer; on success dispatch and clear; on failure discard only once the
buffer exceeds 50,000 characters. -/
def try_parse_buffered_json (s : MonitorState) : MonitorState :=
  if s.json_buffer = [] then s
  else
    match jsonParse s.json_buffer with
    | some v =>
      let s' := handle_json_message s v
      { s' with json_buffer := [], in_json_block := false }
    | none =>
      if 50000 < s.json_buffer.length then
        { s with json_buffer := [], in_json_block := false }
      else s

/-- The body of `_process_json_buffer` once a marker is found at
`startPos`: flush any old buffer, then either parse the tail of the line
directly (when it looks complete) or seed the accumulation buffer. -/
def seedOrParse (s : MonitorState) (line : List Char) (startPos : Nat) :
    MonitorState :=
  let s := if s.json_buffer = [] then s else try_parse_buffered_json s
  let potential := line.drop startPos
  if 0 < potential.count '\x7b' ∧ potential.getLast? = some '\x7d' then
    match jsonParse potential with
    | some v => handle_json_message s v
    | none => { s with json_buffer := potential, in_json_block := true }
  else { s with json_buffer := potential, in_json_block := true }

/-- `RealTimeStreamMonitor._process_json_buffer`: the three markers are
tried in source order; with no marker, an open accumulation absorbs the
line and retries the buffer. -/
def process_json_buffer (s : MonitorState) (line : List Char) : MonitorState :=
  match findSub markerAssistant line with
  | some p => seedOrParse s line p
  | none =>
    match findSub markerUser line with
    | some p => seedOrParse s line p
    | none =>
      match findSub markerSystem line with
      | some p => seedOrParse s line p
      | none =>
        if s.in_json_block then
          try_parse_buffered_json { s with json_buffer := s.json_buffer ++ line }
        else s

/-- The character scan of `_extract_and_handle_embedded_json`: track
string/escape state and brace depth, return the index one past the brace
that closes the first top-level object, if any. -/
def braceScanGo : List Char → Nat → Int → Bool → Bool → Option Nat
  | [], _, _, _, _ => none
  | c :: rest, i, depth, inStr, esc =>
    if esc then braceScanGo rest (i + 1) depth inStr false
    else if c == '\\' && inStr then braceScanGo rest (i + 1) depth inStr true
    else if c == '"' then braceScanGo rest (i + 1) depth (!inStr) false
    else if !inStr && c == '\x7b' then braceScanGo rest (i + 1) (depth + 1) inStr false
    else if !inStr && c == '\x7d' then
      if depth - 1 = 0 then some (i + 1)
      else braceScanGo rest (i + 1) (depth - 1) inStr false
    else braceScanGo rest (i + 1) depth inStr false

/-- Entry point of the brace scan, depth 0, outside any string. -/
def braceScanEnd (cs : List Char) : Option Nat := braceScanGo cs 0 0 false false

/-- One pattern iteration of `_extract_and_handle_embedded_json`: find
the pattern, brace-scan the tail, parse the balanced slice, dispatch. -/
def extractPattern (s : MonitorState) (line pat : List Char) : MonitorState :=
  match findSub pat line with
  | none => s
  | some idx =>
    let remaining := line.drop idx
    match braceScanEnd remaining with
    | some e =>
      match jsonParse (remaining.take e) with
      | some v => handle_json_message s v
      | none => s
    | none => s

/-- `RealTimeStreamMonitor._extract_and_handle_embedded_json`: all three
start patterns are processed, in the source's order
(assistant, system, user), with no early return. -/
def extract_and_handle_embedded_json (s : MonitorState) (line : List Char) :
    MonitorState :=
  extractPattern
    (extractPattern (extractPattern s line markerAssistant) line markerSystem)
    line markerUser

/-- The tail of `_process_output_line` reached when the direct JSON parse
did not succeed: regex detection always runs, then the embedded-JSON
extraction if a telltale substring is present. -/
def afterDirectPath (s : MonitorState) (cleaned : List Char) : MonitorState :=
  let s := detect_tool_calls_in_line s cleaned
  if containsSub "\"type\":\"assistant\"".data cleaned ∨
      containsSub "\"tool_use\"".data cleaned ∨
      containsSub "\"name\"".data cleaned then
    extract_and_handle_embedded_json s cleaned
  else s

/-- `RealTimeStreamMonitor._process_output_line`: strip; run the buffer
machinery; then the direct path (a line that is one complete JSON object
returns immediately once dispatched); otherwise the fallbacks. -/
def process_output_line (s : MonitorState) (line : List Char) : MonitorState :=
  let cleaned := pstrip line
  if cleaned = [] then s
  else
    let s1 := process_json_buffer s cleaned
    if cleaned.head? = some '\x7b' ∧ cleaned.getLast? = some '\x7d' then
      match jsonParse cleaned with
      | some v => handle_json_message s1 v
      | none => afterDirectPath s1 cleaned
    else afterDirectPath s1 cleaned

/-- `text.split('\n')`, keeping empty pieces, as Python does. -/
def splitNl : List Char → List (List Char)
  | [] => [[]]
  | c :: rest =>
    if c == '\n' then [] :: splitNl rest
    else
      match splitNl rest with
      | [] => [[c]]
      | l :: ls => (c :: l) :: ls

/-- `RealTimeStreamMonitor.analyze_completed_output`: clears the live
`tool_calls`, `total_calls` and `id_format_stats` counters in place and
replays the transcript line by line through the live pipeline. -/
def analyze_completed_output (s : MonitorState) (text : List Char) :
    MonitorState :=
  let s := { s with tool_calls := [], total_calls := 0, id_format_stats := [] }
  (splitNl text).foldl
    (fun st l => if pstrip l = [] then st else process_output_line st (pstrip l)) s

/-- The read-only statistics snapshot returned by `get_statistics`. -/
structure Statistics where
  tool_calls : List (String × Nat)
  total_tool_calls : Nat
  max_total_calls : Option Nat
  tool_limits : List (String × Nat)
  id_format_stats : List (String × Nat)
  current_cost_usd : ℚ
  max_cost_usd : ℚ
  total_input_tokens : Int
  total_output_tokens : Int
  cost_utilization : ℚ
  tool_utilization : ℚ
  deriving DecidableEq, Repr

/-- `RealTimeStreamMonitor.get_statistics`. -/
def get_statistics (s : MonitorState) : Statistics :=
  { tool_calls := s.tool_calls
    total_tool_calls := s.total_calls
    max_total_calls := s.max_total_calls
    tool_limits := s.tool_limits
    id_format_stats := s.id_format_stats
    current_cost_usd := s.current_cost_usd
    max_cost_usd := s.max_cost_usd
    total_input_tokens := s.total_input_tokens
    total_output_tokens := s.total_output_tokens
    cost_utilization :=
      if 0 < s.max_cost_usd then s.current_cost_usd / s.max_cost_usd * 100 else 0
    tool_utilization :=
      match s.max_total_calls with
      | some m => if m ≠ 0 then (s.total_calls : ℚ) / (m : ℚ) * 100 else 0
      | none => 0 }

/-- The operations that can reach a monitor state during a run: a line of
stream output through the full parsing pipeline, a tool-use event, a
usage event, or an offline re-analysis call. -/
inductive MonitorOp where
  | line : List Char → MonitorOp
  | toolCall : String → String → MonitorOp
  | usage : Int → Int → String → MonitorOp
  | analyze : List Char → MonitorOp

/-- Apply one operation to the monitor state. -/
def applyOp (s : MonitorState) : MonitorOp → MonitorState
  | .line l => process_output_line s l
  | .toolCall n i => handle_tool_call s n i
  | .usage i o m => handle_usage_data s i o m
  | .analyze t => analyze_completed_output s t

/-- Run a sequence of operations from a state. -/
def runOps (s : MonitorState) (ops : List MonitorOp) : MonitorState :=
  ops.foldl applyOp s

/-- The two counting invariants the monitor maintains: `total_calls` is
the sum of the per-tool counts, and it never exceeds the sum of the
id-format distribution (which also counts rejected events). -/
def CountInv (s : MonitorState) : Prop :=
  s.total_calls = alSum s.tool_calls ∧ s.total_calls ≤ alSum s.id_format_stats

/-- The 15 characters `{"type":"user",` that open the oversize fragment
used to exercise the buffer ceiling. -/
def muChars : List Char :=
  ['\x7b', '"', 't', 'y', 'p', 'e', '"', ':', '"', 'u', 's', 'e', 'r', '"', ',']

/-- An unterminated fragment: the `user` event opener followed by `n + 1`
filler characters. -/
def fragN (n : Nat) : List Char := muChars ++ List.replicate (n + 1) 'x'

/-- A complete assistant tool-use line, written with spaces after the
colons so that it carries none of the buffer markers. -/
def vLineSp : List Char :=
  "\x7b\"type\": \"assistant\", \"message\": \x7b\"content\": [\x7b\"type\": \"tool_use\", \"id\": \"a\", \"name\": \"Bash\"\x7d]\x7d\x7d".data

/-- The 60,000-character unterminated fragment of the overflow scenario. -/
def bigFragment : List Char := fragN 59984

/-- A compact, valid assistant tool-use JSON line. -/
def toolUseLine : List Char :=
  "\x7b\"type\":\"assistant\",\"message\":\x7b\"content\":[\x7b\"type\":\"tool_use\",\"id\":\"a\",\"name\":\"Bash\"\x7d]\x7d\x7d".data

/-- The first 19 bytes of `toolUseLine`: exactly the assistant marker. -/
def toolUsePart1 : List Char := toolUseLine.take 19

/-- The remaining bytes of `toolUseLine`. -/
def toolUsePart2 : List Char := toolUseLine.drop 19

/-- The value `json.loads` yields for `toolUseLine`. -/
def toolUseParsed : JValue :=
  .jobj [("type", .jstr "assistant"),
    ("message", .jobj [("content", .jarr [
      .jobj [("type", .jstr "tool_use"), ("id", .jstr "a"), ("name", .jstr "Bash")]])])]

/-- A reachable state whose `should_stop` flag is set: a total-call cap
of zero makes the very first tool-use event trip the cap. -/
def stoppedState : MonitorState :=
  handle_tool_call (initMonitor [] (some 0) 10) "Bash" "t1"

/-- Incrementing one key raises the counter sum by exactly one. -/
theorem alSum_alInc (l : List (String × Nat)) (k : String) :
    alSum (alInc l k) = alSum l + 1 := by
  induction l with
  | nil => rfl
  | cons p rest ih =>
    obtain ⟨k', v⟩ := p
    by_cases h : k' = k
    · simp [alInc, h, alSum]; omega
    · simp [alInc, h, alSum] at ih ⊢
      omega

theorem countInv_handle_tool_call {s : MonitorState} (nm tid : String)
    (h : CountInv s) : CountInv (handle_tool_call s nm tid) := by
  obtain ⟨h1, h2⟩ := h
  simp only [handle_tool_call, toolLimitStep, incCounts]
  split
  · split
    · exact ⟨h1, by simp [alSum_alInc]; omega⟩
    · split
      · split
        · exact ⟨h1, by simp [alSum_alInc]; omega⟩
        · exact ⟨by simp [alSum_alInc, h1], by simp [alSum_alInc]; omega⟩
      · exact ⟨by simp [alSum_alInc, h1], by simp [alSum_alInc]; omega⟩
  · split
    · split
      · exact ⟨h1, by simp [alSum_alInc]; omega⟩
      · exact ⟨by simp [alSum_alInc, h1], by simp [alSum_alInc]; omega⟩
    · exact ⟨by simp [alSum_alInc, h1], by simp [alSum_alInc]; omega⟩

theorem countInv_handle_usage_data {s : MonitorState} (i o : Int) (m : String)
    (h : CountInv s) : CountInv (handle_usage_data s i o m) := by
  simp only [handle_usage_data]
  split
  · split
    · exact h
    · exact h
  · exact h

theorem countInv_foldl {α : Type} (f : MonitorState → α → MonitorState)
    (hf : ∀ s a, CountInv s → CountInv (f s a)) :
    ∀ (l : List α) (s : MonitorState), CountInv s → CountInv (l.foldl f s) := by
  intro l
  induction l with
  | nil => intro s hs; exact hs
  | cons a rest ih => intro s hs; exact ih (f s a) (hf s a hs)

theorem countInv_handleContentItem {s : MonitorState} (item : JValue)
    (h : CountInv s) : CountInv (handleContentItem s item) := by
  simp only [handleContentItem]
  split
  · split
    · split
      · split
        · exact countInv_handle_tool_call _ _ h
        · exact h
      · exact h
    · exact h
  · exact h

theorem countInv_processContent {s : MonitorState}
    (mfields : List (String × JValue)) (h : CountInv s) :
    CountInv (processContent s mfields) := by
  simp only [processContent]
  split
  · exact countInv_foldl handleContentItem
      (fun s a hs => countInv_handleContentItem a hs) _ _ h
  · exact h

theorem countInv_processUsage {s : MonitorState}
    (mfields : List (String × JValue)) (h : CountInv s) :
    CountInv (processUsage s mfields) := by
  simp only [processUsage]
  split
  · split
    · split
      · exact countInv_handle_usage_data _ _ _ h
      · exact h
    · exact h
  · exact h

theorem countInv_handle_json_message {s : MonitorState} (v : JValue)
    (h : CountInv s) : CountInv (handle_json_message s v) := by
  simp only [handle_json_message]
  split
  · split
    · split
      · split
        · exact countInv_processUsage _ (countInv_processContent _ h)
        · exact h
      · exact h
    · exact h
  · exact h

theorem countInv_try_parse_buffered_json {s : MonitorState}
    (h : CountInv s) : CountInv (try_parse_buffered_json s) := by
  simp only [try_parse_buffered_json]
  split
  · exact h
  · split
    · exact countInv_handle_json_message _ h
    · split
      · exact h
      · exact h

theorem countInv_seedOrParse {s : MonitorState} (line : List Char)
    (p : Nat) (h : CountInv s) : CountInv (seedOrParse s line p) := by
  simp only [seedOrParse]
  have h1 : CountInv (if s.json_buffer = [] then s else try_parse_buffered_json s) := by
    split
    · exact h
    · exact countInv_try_parse_buffered_json h
  split
  · split
    · exact countInv_handle_json_message _ h1
    · exact h1
  · exact h1

theorem countInv_process_json_buffer {s : MonitorState} (line : List Char)
    (h : CountInv s) : CountInv (process_json_buffer s line) := by
  simp only [process_json_buffer]
  split
  · exact countInv_seedOrParse _ _ h
  · split
    · exact countInv_seedOrParse _ _ h
    · split
      · exact countInv_seedOrParse _ _ h
      · split
        · exact countInv_try_parse_buffered_json h
        · exact h

theorem countInv_detect_tool_calls_in_line {s : MonitorState}
    (line : List Char) (h : CountInv s) :
    CountInv (detect_tool_calls_in_line s line) := by
  simp only [detect_tool_calls_in_line]
  split
  · exact countInv_handle_tool_call _ _ h
  · exact countInv_foldl _ (fun s a hs => countInv_handle_tool_call _ _ hs) _ _ h

theorem countInv_extractPattern {s : MonitorState} (line pat : List Char)
    (h : CountInv s) : CountInv (extractPattern s line pat) := by
  simp only [extractPattern]
  split
  · exact h
  · split
    · split
      · exact countInv_handle_json_message _ h
      · exact h
    · exact h

theorem countInv_afterDirectPath {s : MonitorState} (cleaned : List Char)
    (h : CountInv s) : CountInv (afterDirectPath s cleaned) := by
  simp only [afterDirectPath, extract_and_handle_embedded_json]
  split
  · exact countInv_extractPattern _ _
      (countInv_extractPattern _ _
        (countInv_extractPattern _ _ (countInv_detect_tool_calls_in_line _ h)))
  · exact countInv_detect_tool_calls_in_line _ h

theorem countInv_process_output_line {s : MonitorState} (line : List Char)
    (h : CountInv s) : CountInv (process_output_line s line) := by
  simp only [process_output_line]
  split
  · exact h
  · split
    · split
      · exact countInv_handle_json_message _
          (countInv_process_json_buffer _ h)
      · exact countInv_afterDirectPath _
          (countInv_process_json_buffer _ h)
    · exact countInv_afterDirectPath _ (countInv_process_json_buffer _ h)

theorem countInv_analyze_completed_output {s : MonitorState}
    (text : List Char) : CountInv (analyze_completed_output s text) := by
  simp only [analyze_completed_output]
  apply countInv_foldl
  · intro s' l h'
    split
    · exact h'
    · exact countInv_process_output_line _ h'
  · exact ⟨rfl, Nat.zero_le _⟩

theorem countInv_applyOp {s : MonitorState} (op : MonitorOp)
    (h : CountInv s) : CountInv (applyOp s op) := by
  cases op with
  | line l => exact countInv_process_output_line _ h
  | toolCall n i => exact countInv_handle_tool_call _ _ h
  | usage i o m => exact countInv_handle_usage_data _ _ _ h
  | analyze t => exact countInv_analyze_completed_output _

theorem countInv_runOps (tool_limits : List (String × Nat))
    (max_total_calls : Option Nat) (max_cost_usd : ℚ) (ops : List MonitorOp) :
    CountInv (runOps (initMonitor tool_limits max_total_calls max_cost_usd) ops) := by
  apply countInv_foldl applyOp (fun s a hs => countInv_applyOp a hs)
  exact ⟨rfl, Nat.zero_le _⟩

/-- Stripping is the identity when neither end is whitespace. -/
theorem pstrip_eq_self (cs : List Char)
    (h1 : ∀ c, cs.head? = some c → isPyWs c = false)
    (h2 : ∀ c, cs.getLast? = some c → isPyWs c = false) : pstrip cs = cs := by
  have d1 : cs.dropWhile isPyWs = cs := by
    cases cs with
    | nil => rfl
    | cons c cs' => rw [List.dropWhile_cons, h1 c rfl]; simp
  have d2 : cs.reverse.dropWhile isPyWs = cs.reverse := by
    cases hr : cs.reverse with
    | nil => rfl
    | cons d ds =>
      have hd : cs.getLast? = some d := by
        rw [← List.head?_reverse, hr]; rfl
      rw [List.dropWhile_cons, h2 d hd]; simp
  rw [pstrip, d1, d2, List.reverse_reverse]

/-- A pattern whose first character is not `x` never occurs in filler. -/
theorem findSubAux_replicate (p : Char) (ps : List Char) (h : (p == 'x') = false) :
    ∀ n i, findSubAux (p :: ps) (List.replicate n 'x') i = none := by
  intro n
  induction n with
  | zero => intro i; rfl
  | succ k ih =>
    intro i
    rw [List.replicate_succ]
    simp [findSubAux, litPre, h, ih]

/-- The first fallback regex never matches inside filler. -/
theorem firstMatchP1_replicate (n : Nat) :
    firstMatchP1 (List.replicate n 'x') = none := by
  induction n with
  | zero => rfl
  | succ k ih =>
    rw [List.replicate_succ]
    simp [firstMatchP1, matchP1At, matchLit, ih]

/-- The second fallback regex never matches at the head of filler. -/
theorem matchP2At_replicate (m : Nat) : matchP2At (List.replicate m 'x') = none := by
  cases m with
  | zero => rfl
  | succ k => rw [List.replicate_succ]; simp [matchP2At, matchKeyQuote, matchLit]

/-- `findall` for the second regex is empty when no suffix matches. -/
theorem findallP2_eq_nil (f : Nat) (cs : List Char)
    (h : ∀ k, matchP2At (cs.drop k) = none) : findallP2 f cs = [] := by
  induction f generalizing cs with
  | zero => rfl
  | succ g ih =>
    cases cs with
    | nil => rfl
    | cons c rest =>
      rw [findallP2]
      have h0 := h 0
      rw [List.drop_zero] at h0
      rw [h0]
      exact ih rest (fun k => by have := h (k + 1); rwa [List.drop_succ_cons] at this)

theorem fragN_getLast (n : Nat) : (fragN n).getLast? = some 'x' := by
  rw [fragN, List.getLast?_append, List.getLast?_replicate]
  simp

theorem fragN_head (n : Nat) : (fragN n).head? = some '\x7b' := by
  rw [fragN]; rfl

theorem fragN_strip (n : Nat) : pstrip (fragN n) = fragN n := by
  apply pstrip_eq_self
  · intro c hc
    rw [fragN_head] at hc
    cases hc; rfl
  · intro c hc
    rw [fragN_getLast] at hc
    cases hc; rfl

theorem fragN_ne_nil (n : Nat) : fragN n ≠ [] := by
  rw [fragN]; simp [muChars]

theorem fragN_findA (n : Nat) : findSub markerAssistant (fragN n) = none := by
  rw [fragN]
  simp [findSub, muChars, findSubAux, litPre, markerAssistant, findSubAux_replicate]

theorem fragN_findU (n : Nat) : findSub markerUser (fragN n) = some 0 := by
  rw [fragN]
  simp [findSub, muChars, findSubAux, litPre, markerUser]

theorem fragN_p1 (n : Nat) : firstMatchP1 (fragN n) = none := by
  rw [fragN]
  simp [muChars, firstMatchP1, matchP1At, matchLit, skipRWs, isPyWs,
    firstMatchP1_replicate]

theorem fragN_p2 (n f : Nat) : findallP2 f (fragN n) = [] := by
  rw [fragN]
  apply findallP2_eq_nil
  intro k
  rcases Nat.lt_or_ge k 15 with hk | hk
  · interval_cases k <;>
      simp [muChars, matchP2At, matchKeyQuote, matchLit, skipRWs, isPyWs,
        parseJStringAux, matchP2At_replicate]
  · obtain ⟨j, rfl⟩ := Nat.exists_eq_add_of_le hk
    have hmu : (15 : Nat) + j = muChars.length + j := rfl
    rw [hmu, List.drop_append, List.drop_replicate]
    exact matchP2At_replicate _

theorem fragN_mA (n : Nat) :
    containsSub "\"type\":\"assistant\"".data (fragN n) = false := by
  rw [fragN]
  simp [containsSub, findSub, muChars, findSubAux, litPre, findSubAux_replicate]

theorem fragN_mT (n : Nat) :
    containsSub "\"tool_use\"".data (fragN n) = false := by
  rw [fragN]
  simp [containsSub, findSub, muChars, findSubAux, litPre, findSubAux_replicate]

theorem fragN_mN (n : Nat) :
    containsSub "\"name\"".data (fragN n) = false := by
  rw [fragN]
  simp [containsSub, findSub, muChars, findSubAux, litPre, findSubAux_replicate]

/-- Feeding the oversize unterminated fragment to the pipeline only seeds
the accumulation buffer: nothing is discarded yet, no event fires. -/
theorem fragN_seed (n : Nat) :
    process_output_line (initMonitor [] none 10) (fragN n) =
      { initMonitor [] none 10 with json_buffer := fragN n, in_json_block := true } := by
  have hlast := fragN_getLast n
  simp only [process_output_line, fragN_strip]
  rw [if_neg (fragN_ne_nil n)]
  rw [if_neg (by rintro ⟨-, h⟩; rw [hlast] at h; exact absurd h (by decide))]
  simp only [process_json_buffer, fragN_findA, fragN_findU]
  simp only [seedOrParse]
  rw [if_pos (show (initMonitor [] none 10).json_buffer = [] from rfl)]
  rw [List.drop_zero]
  rw [if_neg (by rintro ⟨-, h⟩; rw [hlast] at h; exact absurd h (by decide))]
  simp only [afterDirectPath, detect_tool_calls_in_line, fragN_p1, fragN_p2,
    List.foldl_nil]
  rw [if_neg (by
    rw [fragN_mA, fragN_mT, fragN_mN]
    simp)]

/-- A buffer that starts with the fragment opener and then hits filler
fails `json.loads`, regardless of what follows and of the fuel. -/
theorem parse_muX_none (f : Nat) (tail : List Char) :
    parseJValue f (muChars ++ 'x' :: tail) = none := by
  match f with
  | 0 => rfl
  | 1 => simp [parseJValue, parseJFields, jskip, muChars, isJWs, parseJStringAux]
  | 2 => simp [parseJValue, parseJFields, jskip, muChars, isJWs, parseJStringAux]
  | (c + 3) =>
    simp [parseJValue, parseJFields, jskip, muChars, isJWs, parseJStringAux]

/-- Processing the valid line after the oversize fragment first appends
it to the buffer, finds the buffer unparseable and over the 50,000 cap,
and discards it, returning the accumulation machinery to idle. -/
theorem vLineSp_bufstep (n : Nat) (hn : 49889 ≤ n) :
    process_json_buffer
      { initMonitor [] none 10 with json_buffer := fragN n, in_json_block := true }
      vLineSp = initMonitor [] none 10 := by
  simp only [process_json_buffer,
    show findSub markerAssistant vLineSp = none from by decide,
    show findSub markerUser vLineSp = none from by decide,
    show findSub markerSystem vLineSp = none from by decide]
  simp only [if_true]
  simp only [try_parse_buffered_json]
  have hbuf : jsonParse (fragN n ++ vLineSp) = none := by
    rw [fragN, List.append_assoc, List.replicate_succ, List.cons_append]
    rw [jsonParse, parse_muX_none]
  rw [if_neg (by simp [fragN, muChars]), hbuf]
  rw [if_pos (by
    simp only [fragN, List.length_append, List.length_replicate]
    have h1 : muChars.length = 15 := rfl
    have h2 : vLineSp.length = 96 := rfl
    omega)]
  rfl

/-- After the oversize buffer is discarded, the valid line parses on the
direct path and its tool call is counted normally. -/
theorem vLineSp_step (n : Nat) (hn : 49889 ≤ n) :
    process_output_line
      { initMonitor [] none 10 with json_buffer := fragN n, in_json_block := true }
      vLineSp =
      { initMonitor [] none 10 with
          tool_calls := [("Bash", 1)], total_calls := 1,
          id_format_stats := [("custom", 1)] } := by
  simp only [process_output_line, show pstrip vLineSp = vLineSp from by decide]
  rw [if_neg (show ¬(vLineSp = []) from by decide)]
  rw [vLineSp_bufstep n hn]
  rw [if_pos (show vLineSp.head? = some '\x7b' ∧ vLineSp.getLast? = some '\x7d' from by decide)]
  decide

/-- Claim C1 (counterexample): splitting the valid tool-use object at the
byte boundary right after the assistant marker and feeding the two chunks
in order does NOT produce exactly one tool-call event: the monitor counts
two (the buffered parse and the regex fallback each fire once). -/
theorem c1_split_counterexample :
    toolUsePart1 ++ toolUsePart2 = toolUseLine ∧
    (jsonParse toolUseLine).isSome = true ∧
    ¬((process_output_line (process_output_line (initMonitor [] none 10) toolUsePart1)
        toolUsePart2).total_calls = 1) := by decide

/-- Claim C1 (amended): for the canonical compact tool-use object split
after the assistant marker, two-chunk ingestion reproduces exactly the
state of whole ingestion, but both record the call twice (total 2, not
1): whole ingestion dispatches the object once in the buffer machinery's
direct parse and once in the direct line path. -/
theorem c1_split_amended :
    process_output_line (process_output_line (initMonitor [] none 10) toolUsePart1)
        toolUsePart2 =
      process_output_line (initMonitor [] none 10) toolUseLine ∧
    (process_output_line (initMonitor [] none 10) toolUseLine).total_calls = 2 ∧
    (process_output_line (initMonitor [] none 10) toolUseLine).tool_calls = [("Bash", 2)] ∧
    (process_output_line (initMonitor [] none 10) toolUseLine).should_stop = false := by
  decide

/-- How a usage event moves the input-token total. -/
theorem usage_input_tokens_eq (s : MonitorState) (i o : Int) (m : String) :
    (handle_usage_data s i o m).total_input_tokens =
      if 0 < i ∨ 0 < o then s.total_input_tokens + i else s.total_input_tokens := by
  simp only [handle_usage_data]
  split
  · split <;> simp_all
  · simp_all

/-- How a usage event moves the output-token total. -/
theorem usage_output_tokens_eq (s : MonitorState) (i o : Int) (m : String) :
    (handle_usage_data s i o m).total_output_tokens =
      if 0 < i ∨ 0 < o then s.total_output_tokens + o else s.total_output_tokens := by
  simp only [handle_usage_data]
  split
  · split <;> simp_all
  · simp_all

/-- How a usage event moves the cumulative cost: the priced increment is
always appended, whether or not it crosses the cap. -/
theorem usage_cost_eq (s : MonitorState) (i o : Int) (m : String) :
    (handle_usage_data s i o m).current_cost_usd =
      if 0 < i ∨ 0 < o then
        s.current_cost_usd +
          ((i : ℚ) / 1000000 * (pricingLookup m).input +
            (o : ℚ) / 1000000 * (pricingLookup m).output)
      else s.current_cost_usd := by
  simp only [handle_usage_data]
  split
  · split <;> simp_all
  · simp_all

/-- Claim C2 (counterexample): in a reachable state with `should_stop`
already true, a subsequent usage event still increments the token totals
and the cumulative cost — the handlers never consult `should_stop`. -/
theorem c2_stop_counterexample :
    stoppedState.should_stop = true ∧
    stoppedState.total_input_tokens = 0 ∧
    stoppedState.current_cost_usd = 0 ∧
    (handle_usage_data stoppedState 5 0 "m").total_input_tokens = 5 ∧
    ¬((handle_usage_data stoppedState 5 0 "m").current_cost_usd = 0) := by
  have h1 : stoppedState.should_stop = true := by decide
  have h2 : stoppedState.total_input_tokens = 0 := by decide
  have h3 : stoppedState.current_cost_usd = 0 := by decide
  refine ⟨h1, h2, h3, ?_, ?_⟩
  · rw [usage_input_tokens_eq, if_pos (by decide), h2]; decide
  · rw [usage_cost_eq, if_pos (by decide), h3,
      show pricingLookup "m" = ⟨3, 15⟩ from rfl]
    norm_num

/-- A usage event can set `should_stop` but never clears it. -/
theorem usage_stop_mono (s : MonitorState) (i o : Int) (m : String)
    (h : s.should_stop = true) : (handle_usage_data s i o m).should_stop = true := by
  simp only [handle_usage_data]
  split
  · split
    · rfl
    · exact h
  · exact h

/-- Every configured (and the fallback) rate is strictly positive. -/
theorem pricing_pos (m : String) :
    0 < (pricingLookup m).input ∧ 0 < (pricingLookup m).output := by
  simp only [pricingLookup]
  split_ifs <;> exact ⟨by norm_num, by norm_num⟩

/-- A tool-use event arriving while the total cap is already met only
bumps the id-format distribution and re-asserts `should_stop`. -/
theorem handle_tool_call_capped {s : MonitorState} (nm tid : String) (cap : Nat)
    (hcap : s.max_total_calls = some cap) (hle : cap ≤ s.total_calls) :
    handle_tool_call s nm tid =
      { s with id_format_stats := alInc s.id_format_stats (detect_tool_id_format tid),
               should_stop := true } := by
  simp only [handle_tool_call, hcap]
  rw [if_pos hle]

/-- Claim C2 (amended): the handlers never read `should_stop`.  When the
stop was caused by the total-call cap, later tool-use events are still
blocked by the very same cap check — per-tool counts and `total_calls`
stay put while the id-format distribution keeps growing — but later
usage events keep increasing the token totals and the cumulative cost,
and `should_stop` stays latched. -/
theorem c2_stop_amended (s : MonitorState) (nm tid model : String)
    (inT outT : Int) (cap : Nat)
    (hstop : s.should_stop = true)
    (hcap : s.max_total_calls = some cap)
    (hle : cap ≤ s.total_calls) :
    (handle_tool_call s nm tid).total_calls = s.total_calls ∧
    (handle_tool_call s nm tid).tool_calls = s.tool_calls ∧
    (handle_tool_call s nm tid).should_stop = true ∧
    alSum (handle_tool_call s nm tid).id_format_stats = alSum s.id_format_stats + 1 ∧
    (0 < inT → 0 ≤ outT →
      s.total_input_tokens < (handle_usage_data s inT outT model).total_input_tokens ∧
      s.current_cost_usd < (handle_usage_data s inT outT model).current_cost_usd ∧
      (handle_usage_data s inT outT model).should_stop = true) := by
  rw [handle_tool_call_capped nm tid cap hcap hle]
  refine ⟨rfl, rfl, rfl, alSum_alInc _ _, ?_⟩
  intro h1 h2
  refine ⟨?_, ?_, usage_stop_mono s inT outT model hstop⟩
  · rw [usage_input_tokens_eq, if_pos (Or.inl h1)]
    omega
  · rw [usage_cost_eq, if_pos (Or.inl h1)]
    have hi : (0 : ℚ) < (inT : ℚ) / 1000000 * (pricingLookup model).input := by
      apply mul_pos
      · apply div_pos
        · exact_mod_cast h1
        · norm_num
      · exact (pricing_pos model).1
    have ho : (0 : ℚ) ≤ (outT : ℚ) / 1000000 * (pricingLookup model).output := by
      apply mul_nonneg
      · apply div_nonneg
        · exact_mod_cast h2
        · norm_num
      · exact le_of_lt (pricing_pos model).2
    linarith

/-- Witness for the amended C2 at a concrete capped state and event. -/
theorem c2_stop_amended_witness :
    (handle_tool_call stoppedState "Bash" "t2").total_calls = stoppedState.total_calls ∧
    (handle_tool_call stoppedState "Bash" "t2").tool_calls = stoppedState.tool_calls ∧
    (handle_tool_call stoppedState "Bash" "t2").should_stop = true ∧
    alSum (handle_tool_call stoppedState "Bash" "t2").id_format_stats =
      alSum stoppedState.id_format_stats + 1 ∧
    (0 < (5 : Int) → 0 ≤ (0 : Int) →
      stoppedState.total_input_tokens <
        (handle_usage_data stoppedState 5 0 "m").total_input_tokens ∧
      stoppedState.current_cost_usd <
        (handle_usage_data stoppedState 5 0 "m").current_cost_usd ∧
      (handle_usage_data stoppedState 5 0 "m").should_stop = true) :=
  c2_stop_amended stoppedState "Bash" "t2" "m" 5 0 0 (by decide) (by decide) (by decide)

/-- Claim C3 (code bug): `analyze_completed_output` clears and reuses the
live counters.  A monitor that has counted one Bash call loses that count
(live total drops from 1 to 0, and the statistics snapshot reflects the
loss) merely by analyzing an empty transcript. -/
theorem c3_analyze_code_bug :
    (handle_tool_call (initMonitor [] none 10) "Bash" "t1").total_calls = 1 ∧
    alGet (handle_tool_call (initMonitor [] none 10) "Bash" "t1").tool_calls "Bash" = 1 ∧
    (analyze_completed_output
        (handle_tool_call (initMonitor [] none 10) "Bash" "t1") []).total_calls = 0 ∧
    alGet (analyze_completed_output
        (handle_tool_call (initMonitor [] none 10) "Bash" "t1") []).tool_calls "Bash" = 0 ∧
    (get_statistics (analyze_completed_output
        (handle_tool_call (initMonitor [] none 10) "Bash" "t1") [])).total_tool_calls = 0 := by
  decide

/-- Claim C4: with a total-call cap of 2 and no per-tool limits, three
sequential Bash tool-use events (any ids) leave `Bash = 2`,
`total_calls = 2`, `should_stop = true`; the third event increments no
call counter. -/
theorem c4_total_cap_scenario (id1 id2 id3 : String) :
    alGet (handle_tool_call (handle_tool_call (handle_tool_call
        (initMonitor [] (some 2) 10) "Bash" id1) "Bash" id2) "Bash" id3).tool_calls
        "Bash" = 2 ∧
    (handle_tool_call (handle_tool_call (handle_tool_call
        (initMonitor [] (some 2) 10) "Bash" id1) "Bash" id2) "Bash" id3).total_calls = 2 ∧
    (handle_tool_call (handle_tool_call (handle_tool_call
        (initMonitor [] (some 2) 10) "Bash" id1) "Bash" id2) "Bash" id3).should_stop
        = true ∧
    (handle_tool_call (handle_tool_call (handle_tool_call
        (initMonitor [] (some 2) 10) "Bash" id1) "Bash" id2) "Bash" id3).tool_calls =
      (handle_tool_call (handle_tool_call
        (initMonitor [] (some 2) 10) "Bash" id1) "Bash" id2).tool_calls ∧
    (handle_tool_call (handle_tool_call (handle_tool_call
        (initMonitor [] (some 2) 10) "Bash" id1) "Bash" id2) "Bash" id3).total_calls =
      (handle_tool_call (handle_tool_call
        (initMonitor [] (some 2) 10) "Bash" id1) "Bash" id2).total_calls := by
  simp [handle_tool_call, toolLimitStep, incCounts, initMonitor, alFind, alGet, alInc]

/-- Claim C5: in every state reachable by any operation sequence from any
initial configuration, `total_calls` equals the sum of per-tool counts,
and the statistics snapshot reflects both identically. -/
theorem c5_total_eq_sum (tool_limits : List (String × Nat))
    (max_total_calls : Option Nat) (max_cost_usd : ℚ) (ops : List MonitorOp) :
    (runOps (initMonitor tool_limits max_total_calls max_cost_usd) ops).total_calls =
      alSum (runOps (initMonitor tool_limits max_total_calls max_cost_usd) ops).tool_calls ∧
    (get_statistics (runOps (initMonitor tool_limits max_total_calls max_cost_usd) ops)).total_tool_calls =
      alSum (get_statistics (runOps (initMonitor tool_limits max_total_calls max_cost_usd) ops)).tool_calls ∧
    (get_statistics (runOps (initMonitor tool_limits max_total_calls max_cost_usd) ops)).tool_calls =
      (runOps (initMonitor tool_limits max_total_calls max_cost_usd) ops).tool_calls ∧
    (get_statistics (runOps (initMonitor tool_limits max_total_calls max_cost_usd) ops)).total_tool_calls =
      (runOps (initMonitor tool_limits max_total_calls max_cost_usd) ops).total_calls := by
  have h := countInv_runOps tool_limits max_total_calls max_cost_usd ops
  exact ⟨h.1, h.1, rfl, rfl⟩

/-- Claim C8: each usage event adds exactly
`tokens / 10^6 × per-million rate` (resolved by exact model lookup with
the sonnet fallback) to the cumulative cost; one million input tokens at
the $3/M model add exactly $3.00, and an increment that crosses the cap
stays counted while setting `should_stop`. -/
theorem c8_cost_formula (s : MonitorState) (inT outT : Int) (model : String)
    (h1 : 0 ≤ inT) (h2 : 0 ≤ outT) :
    (handle_usage_data s inT outT model).current_cost_usd =
      s.current_cost_usd +
        ((inT : ℚ) / 1000000 * (pricingLookup model).input +
          (outT : ℚ) / 1000000 * (pricingLookup model).output) ∧
    pricingLookup "claude-3-5-sonnet-20241022" = ⟨3, 15⟩ ∧
    (∀ m, m ≠ "claude-3-5-haiku-20241022" → m ≠ "kimi-k2-0711-preview" →
      m ≠ "claude-3-5-sonnet-20241022" → pricingLookup m = ⟨3, 15⟩) ∧
    (∀ s' : MonitorState,
      (handle_usage_data s' 1000000 0 "claude-3-5-sonnet-20241022").current_cost_usd =
        s'.current_cost_usd + 3) ∧
    (handle_usage_data (initMonitor [] none 2) 1000000 0
        "claude-3-5-sonnet-20241022").current_cost_usd = 3 ∧
    (handle_usage_data (initMonitor [] none 2) 1000000 0
        "claude-3-5-sonnet-20241022").should_stop = true := by
  have hform : ∀ (u : MonitorState) (i o : Int), 0 ≤ i → 0 ≤ o →
      (handle_usage_data u i o model).current_cost_usd =
        u.current_cost_usd +
          ((i : ℚ) / 1000000 * (pricingLookup model).input +
            (o : ℚ) / 1000000 * (pricingLookup model).output) := by
    intro u i o hi ho
    rw [usage_cost_eq]
    split
    · rfl
    · rename_i hneg
      push_neg at hneg
      have hieq : i = 0 := le_antisymm hneg.1 hi
      have hoeq : o = 0 := le_antisymm hneg.2 ho
      subst hieq; subst hoeq
      norm_num
  have hsonnet : ∀ s' : MonitorState,
      (handle_usage_data s' 1000000 0 "claude-3-5-sonnet-20241022").current_cost_usd =
        s'.current_cost_usd + 3 := by
    intro s'
    rw [usage_cost_eq, if_pos (by decide),
      show pricingLookup "claude-3-5-sonnet-20241022" = ⟨3, 15⟩ from rfl]
    norm_num
  refine ⟨hform s inT outT h1 h2, rfl, ?_, hsonnet, ?_, ?_⟩
  · intro m hm1 hm2 hm3
    simp [pricingLookup, hm1, hm2, hm3]
  · rw [hsonnet]
    norm_num
    decide
  · simp only [handle_usage_data]
    rw [if_pos (by decide)]
    rw [if_pos ?_]
    have : (initMonitor [] none 2).max_cost_usd = 2 := rfl
    rw [show pricingLookup "claude-3-5-sonnet-20241022" = ⟨3, 15⟩ from rfl]
    show (2 : ℚ) ≤ 0 + ((1000000 : ℚ) / 1000000 * 3 + (0 : ℚ) / 1000000 * 15)
    norm_num

/-- Witness for the C8 cost formula at one million input tokens priced
under the fallback sonnet model. -/
theorem c8_cost_formula_witness :
    (handle_usage_data (initMonitor [] none 10) 1000000 0
        "claude-3-5-sonnet-20241022").current_cost_usd =
      (initMonitor [] none 10).current_cost_usd +
        ((1000000 : ℚ) / 1000000 * (pricingLookup "claude-3-5-sonnet-20241022").input +
          (0 : ℚ) / 1000000 * (pricingLookup "claude-3-5-sonnet-20241022").output) :=
  (c8_cost_formula (initMonitor [] none 10) 1000000 0 "claude-3-5-sonnet-20241022"
    (by decide) (by decide)).1

/-- Claim C10: every observed tool-use event bumps the id-format
distribution (also when a budget rejects the call), so the distribution's
sum always dominates `total_calls` on reachable states, strictly so after
a rejected event. -/
theorem c10_id_format_distribution :
    (∀ (s : MonitorState) (nm tid : String),
      alSum (handle_tool_call s nm tid).id_format_stats = alSum s.id_format_stats + 1) ∧
    (∀ (tool_limits : List (String × Nat)) (max_total_calls : Option Nat)
        (max_cost_usd : ℚ) (ops : List MonitorOp),
      (runOps (initMonitor tool_limits max_total_calls max_cost_usd) ops).total_calls ≤
        alSum (runOps (initMonitor tool_limits max_total_calls max_cost_usd) ops).id_format_stats) ∧
    (∃ ops : List MonitorOp,
      (runOps (initMonitor [] (some 0) 10) ops).total_calls <
        alSum (runOps (initMonitor [] (some 0) 10) ops).id_format_stats) := by
  refine ⟨?_, ?_, ?_⟩
  · intro s nm tid
    simp only [handle_tool_call, toolLimitStep, incCounts]
    split
    · split
      · exact alSum_alInc _ _
      · split
        · split
          · exact alSum_alInc _ _
          · exact alSum_alInc _ _
        · exact alSum_alInc _ _
    · split
      · split
        · exact alSum_alInc _ _
        · exact alSum_alInc _ _
      · exact alSum_alInc _ _
  · intro tool_limits max_total_calls max_cost_usd ops
    exact (countInv_runOps tool_limits max_total_calls max_cost_usd ops).2
  · exact ⟨[.toolCall "Bash" "x"], by decide⟩

/-- Claim C6 (counterexample): after ingesting the 60,000-character
unterminated fragment, the buffer is NOT discarded and the accumulation
state is NOT back to Idle: the whole fragment sits in the buffer with the
accumulating flag set (the overflow guard only runs at the next buffered
parse attempt). -/
theorem c6_overflow_counterexample :
    bigFragment.length = 60000 ∧
    (process_output_line (initMonitor [] none 10) bigFragment).in_json_block = true ∧
    (process_output_line (initMonitor [] none 10) bigFragment).json_buffer
      = bigFragment := by
  refine ⟨?_, ?_, ?_⟩
  · rw [bigFragment, fragN, List.length_append, List.length_replicate]
    rfl
  · rw [bigFragment, fragN_seed]
  · rw [bigFragment, fragN_seed]

/-- Claim C6 (amended): ingesting the 60,000-character unterminated
fragment never raises (the pipeline is total) and counts nothing; the
oversize buffer is retained until the next line triggers a buffered parse
attempt, at which point it is discarded, the state returns to Idle, and
the next valid JSON line parses normally and is counted. -/
theorem c6_overflow_amended :
    bigFragment.length = 60000 ∧
    (process_output_line (initMonitor [] none 10) bigFragment).total_calls = 0 ∧
    (process_output_line (initMonitor [] none 10) bigFragment).should_stop = false ∧
    (process_output_line (initMonitor [] none 10) bigFragment).in_json_block = true ∧
    (process_output_line (initMonitor [] none 10) bigFragment).json_buffer
      = bigFragment ∧
    (process_output_line (process_output_line (initMonitor [] none 10) bigFragment)
        vLineSp).json_buffer = [] ∧
    (process_output_line (process_output_line (initMonitor [] none 10) bigFragment)
        vLineSp).in_json_block = false ∧
    (process_output_line (process_output_line (initMonitor [] none 10) bigFragment)
        vLineSp).total_calls = 1 ∧
    alGet (process_output_line (process_output_line (initMonitor [] none 10) bigFragment)
        vLineSp).tool_calls "Bash" = 1 ∧
    (process_output_line (process_output_line (initMonitor [] none 10) bigFragment)
        vLineSp).should_stop = false := by
  have hs := fragN_seed 59984
  have hv := vLineSp_step 59984 (by norm_num)
  rw [bigFragment, hs, hv]
  refine ⟨?_, rfl, rfl, rfl, rfl, rfl, rfl, rfl, by decide, rfl⟩
  rw [fragN, List.length_append, List.length_replicate]
  rfl

/-- Claim C7 (counterexample): the line that completes a buffered object
is handled by the structured buffered path (one event) and is then ALSO
run through the regex fallback, which emits a second event for the same
tool call: the fallback is not restricted to lines the structured paths
could not handle. -/
theorem c7_regex_counterexample :
    (process_json_buffer (process_output_line (initMonitor [] none 10) toolUsePart1)
        toolUsePart2).total_calls = 1 ∧
    firstMatchP1 toolUsePart2 = some ("a", "Bash") ∧
    (process_output_line (process_output_line (initMonitor [] none 10) toolUsePart1)
        toolUsePart2).total_calls = 2 := by decide

/-- Claim C7 (amended): the regex fallback is skipped exactly when the
stripped line is itself one complete JSON object that parses on the
direct path — such a line is dispatched once, straight after the buffer
machinery, and no fallback runs.  (Lines that are completed by the
buffer, as in the counterexample, still reach the regex fallback.) -/
theorem c7_regex_amended (s : MonitorState) (l : List Char) (v : JValue)
    (h1 : ¬(pstrip l = []))
    (h2 : (pstrip l).head? = some '\x7b')
    (h3 : (pstrip l).getLast? = some '\x7d')
    (h4 : jsonParse (pstrip l) = some v) :
    process_output_line s l =
      handle_json_message (process_json_buffer s (pstrip l)) v := by
  simp only [process_output_line]
  rw [if_neg h1, if_pos ⟨h2, h3⟩, h4]

/-- Witness for the amended C7: the whole compact tool-use line takes the
direct path. -/
theorem c7_regex_amended_witness :
    process_output_line (initMonitor [] none 10) toolUseLine =
      handle_json_message
        (process_json_buffer (initMonitor [] none 10) (pstrip toolUseLine))
        toolUseParsed :=
  c7_regex_amended (initMonitor [] none 10) toolUseLine toolUseParsed
    (by decide) (by decide) (by decide) rfl
